import Mathlib

/-!
Verification of the forwarding scheduler of this repository.

This file gives a shallow embedding, in Lean, of the pure logic of
`src/runner.py` (auto-night quiet-window policy, command parsing, the
per-item forward loop) and `src/app/Storage.py` (`UserConfig` persistence,
`Storage.add_groups`, the persistent `JoinQueue`), and proves or refutes
the specification's claims about them.

Conventions of the embedding:
- a Python `datetime.time` value is represented by its number of seconds
  since midnight (a `Nat < 86400`); Python compares `time` values
  lexicographically on (hour, minute, second), which coincides with the
  order on seconds-of-day;
- Python code that may raise is embedded as an `Option`-valued function
  (`none` = an exception was raised);
- "now" is passed explicitly: `autonight_is_quiet` receives a map
  `validTz : String → Option Nat` giving the current time-of-day in a
  recognized timezone (`none` = `ZoneInfo` raised for that name) together
  with `localNow`, the system-local time-of-day that `datetime.now()`
  falls back to.
-/

namespace App

/-! ### Time-of-day helpers (src/runner.py lines 112-180) -/

/-- Decimal value of a list of digit characters (used to embed Python's
`int` on a digit string). -/
def digitsToNat (cs : List Char) : Nat :=
  cs.foldl (fun n c => n * 10 + (c.toNat - 48)) 0

/-- Python's `str.strip()` on a character list: drop whitespace from both
ends. -/
def stripChars (cs : List Char) : List Char :=
  ((cs.dropWhile Char.isWhitespace).reverse.dropWhile Char.isWhitespace).reverse

/-- Guard of `_parse_hhmm` for the bare-hour form: `0 <= h <= 23`. -/
def hourOnly (h : Nat) : Option (Nat × Nat) :=
  if h ≤ 23 then some (h, 0) else none

/-- Guard of `_parse_hhmm` for the `HH:MM` form: `0 <= h <= 23 and 0 <= mm <= 59`. -/
def hourMinute (h mm : Nat) : Option (Nat × Nat) :=
  if h ≤ 23 && mm ≤ 59 then some (h, mm) else none

/-- Embeds `_parse_hhmm` (src/runner.py lines 112-126): after stripping,
the input must fully match `\d{1,2}` (bare hour, minutes 0) or
`(\d{1,2}):(\d{2})`, with `0 <= h <= 23` and `0 <= mm <= 59`; `none`
embeds the raised `ValueError`. The two regex alternatives are spelled
out by exact shape: 1-2 digits, or 1-2 digits, a colon, 2 digits. -/
def _parse_hhmm (s : String) : Option (Nat × Nat) :=
  match stripChars s.data with
  | [a] =>
      if a.isDigit then hourOnly (digitsToNat [a]) else none
  | [a, b] =>
      if a.isDigit && b.isDigit then hourOnly (digitsToNat [a, b]) else none
  | [a, c, m1, m2] =>
      if a.isDigit && c == ':' && m1.isDigit && m2.isDigit then
        hourMinute (digitsToNat [a]) (digitsToNat [m1, m2])
      else none
  | [a, b, c, m1, m2] =>
      if a.isDigit && b.isDigit && c == ':' && m1.isDigit && m2.isDigit then
        hourMinute (digitsToNat [a, b]) (digitsToNat [m1, m2])
      else none
  | _ => none

/-- Seconds-of-day of an (hour, minute) pair, the representation of the
`datetime.time(h, mm)` built by `_parse_hhmm`. -/
def timeSec (t : Nat × Nat) : Nat :=
  t.1 * 3600 + t.2 * 60

/-- Embeds `_in_window(now_t, start_t, end_t)` (src/runner.py lines
138-143): true if now is within [start, end) with midnight wrap
support. -/
def _in_window (now_t start_t end_t : Nat) : Bool :=
  if start_t ≤ end_t then
    decide (start_t ≤ now_t ∧ now_t < end_t)
  else
    decide (now_t ≥ start_t ∨ now_t < end_t)

/-- Embeds the arithmetic core of `seconds_until_quiet_end`
(src/runner.py lines 159-180), after `start`/`end` have been parsed to
times-of-day and `now` taken in the configured timezone: picks today's or
tomorrow's end-of-window instant exactly as the Python branches do, and
returns `max(1, seconds)`. -/
def seconds_until_quiet_end (start_t end_t now_t : Nat) : Int :=
  let end_sec : Int :=
    if start_t ≤ end_t then
      -- non-wrapping window (e.g., 02:00 -> 05:00)
      if now_t ≥ end_t then (end_t : Int) + 86400 else (end_t : Int)
    else
      -- wrapping window (e.g., 23:00 -> 07:00)
      if now_t < end_t then (end_t : Int) else (end_t : Int) + 86400
  max 1 (end_sec - (now_t : Int))

/-- Distance from now to the next chronological end-of-window instant
strictly after now. Modelled from the spec (its words for
`secondsUntilWindowEnd`), for comparison with `seconds_until_quiet_end`:
if now is before today's end instant the distance is to today's end,
otherwise to tomorrow's. -/
def spec_next_end_distance (end_t now_t : Nat) : Int :=
  if now_t < end_t then (end_t : Int) - now_t
  else (end_t : Int) + 86400 - now_t

/-! ### Auto-night configuration (src/runner.py lines 27-33, 129-156) -/

/-- An auto-night configuration dict. Field `endTime` embeds the dict key
`"end"` (a Lean keyword). `none` embeds a missing key, so `Option.getD`
embeds Python's `dict.get(key, default)`. -/
structure AutoNightCfg where
  enabled : Option Bool
  start : Option String
  endTime : Option String
  tz : Option String

/-- Default timezone `DEFAULT_TZ` (src/runner.py line 27). -/
def DEFAULT_TZ : String := "Asia/Kolkata"

/-- Embeds `_get_now_tz` (src/runner.py lines 129-135): current
time-of-day in `tz_name` when `ZoneInfo` accepts it, otherwise the
system-local `datetime.now()` — any exception is caught inside and the
local clock is the fallback. -/
def _get_now_tz (validTz : String → Option Nat) (localNow : Nat) (tz_name : String) : Nat :=
  match validTz tz_name with
  | some t => t
  | none => localNow

/-- The body of the `try` block of `autonight_is_quiet` (src/runner.py
lines 149-153): `none` embeds an escaping exception (only `_parse_hhmm`
can raise; `_get_now_tz` catches its own). -/
def autonight_quiet_checked (cfg : AutoNightCfg) (validTz : String → Option Nat)
    (localNow : Nat) : Option Bool := do
  let now := _get_now_tz validTz localNow (cfg.tz.getD DEFAULT_TZ)
  let start_t ← _parse_hhmm (cfg.start.getD "23:00")
  let end_t ← _parse_hhmm (cfg.endTime.getD "07:00")
  pure (_in_window now (timeSec start_t) (timeSec end_t))

/-- Embeds `autonight_is_quiet` (src/runner.py lines 146-156): false when
disabled; otherwise the `try` body, with `except Exception: return False`
embedded by `Option.getD false` ("fail open if config broken"). -/
def autonight_is_quiet (cfg : AutoNightCfg) (validTz : String → Option Nat)
    (localNow : Nat) : Bool :=
  if cfg.enabled.getD true = false then false
  else (autonight_quiet_checked cfg validTz localNow).getD false

/-! ### UserConfig persistence (src/app/Storage.py lines 26-87) -/

/-- Embeds the `UserConfig` dataclass (src/app/Storage.py lines 26-31):
`groups : Set[int]` becomes a `Finset ℤ`. -/
structure UserConfig where
  phone : String
  plan_expiry : String
  cycle_minutes : Int
  groups : Finset Int
deriving DecidableEq

/-- The JSON object written for a `UserConfig`: same fields, with
`groups` a list (`sorted(self.groups)` in `to_dict`). -/
structure UserConfigDict where
  phone : String
  plan_expiry : String
  cycle_minutes : Int
  groups : List Int
deriving DecidableEq

/-- Embeds `UserConfig.to_dict` (src/app/Storage.py lines 40-46):
`groups` serialized as `sorted(self.groups)`. -/
def UserConfig.to_dict (cfg : UserConfig) : UserConfigDict :=
  ⟨cfg.phone, cfg.plan_expiry, cfg.cycle_minutes, cfg.groups.sort (· ≤ ·)⟩

/-- Embeds `UserConfig.from_dict` (src/app/Storage.py lines 48-55):
`groups=set(map(int, data.get("groups", [])))`. -/
def UserConfig.from_dict (d : UserConfigDict) : UserConfig :=
  ⟨d.phone, d.plan_expiry, d.cycle_minutes, d.groups.toFinset⟩

/-- Embeds `Storage.save` (src/app/Storage.py lines 68-69): the persisted
file content is `cfg.to_dict()` (written atomically as JSON; the JSON
encoding of strings, ints and int lists is injective, so the dict stands
for the file). -/
def Storage.save (cfg : UserConfig) : UserConfigDict :=
  cfg.to_dict

/-- Embeds `Storage.load` (src/app/Storage.py lines 62-66): parse the
file and rebuild through `UserConfig.from_dict`. -/
def Storage.load (d : UserConfigDict) : UserConfig :=
  UserConfig.from_dict d

/-- Embeds `Storage.add_groups` (src/app/Storage.py lines 71-76):
`cfg.groups.update(map(int, chat_ids))`, returning the growth in size.
There is no capacity check in the source. -/
def Storage.add_groups (cfg : UserConfig) (chat_ids : List Int) : UserConfig × Nat :=
  let before := cfg.groups.card
  let g := cfg.groups ∪ chat_ids.toFinset
  ({ cfg with groups := g }, g.card - before)

/-- Embeds the `.addgroup` handler (src/runner.py lines 421-443): the
`for link in links` loop appends each link to `groups` unless already
present; no capacity check exists in the source. -/
def addgroup_links : List String → List String → List String
  | groups, [] => groups
  | groups, l :: rest =>
      addgroup_links (if l ∈ groups then groups else groups ++ [l]) rest

/-! ### JoinQueue (src/app/Storage.py lines 90-136) -/

/-- A join-queue item `{"kind": ..., "value": ...}` (src/app/Storage.py
lines 91-94). -/
structure JoinItem where
  kind : String
  value : String
deriving DecidableEq

/-- The `(it["kind"], it["value"])` key used for deduplication. -/
def JoinItem.key (it : JoinItem) : String × String :=
  (it.kind, it.value)

/-- The loop of `enqueue_many` (src/app/Storage.py lines 112-119): walk
the input items, appending each to `data` and its key to `existing` when
the key is not yet in `existing`, counting additions. -/
def enqueue_many_go : List JoinItem → List JoinItem → List (String × String) → Nat →
    List JoinItem × Nat
  | [], data, _, added => (data, added)
  | it :: rest, data, existing, added =>
      if it.key ∈ existing then
        enqueue_many_go rest data existing added
      else
        enqueue_many_go rest (data ++ [it]) (it.key :: existing) (added + 1)

/-- Embeds `JoinQueue.enqueue_many` (src/app/Storage.py lines 109-120):
`existing` starts as the set of keys of the currently persisted items;
returns the new persisted item list and the count added. -/
def enqueue_many (queue items : List JoinItem) : List JoinItem × Nat :=
  enqueue_many_go items queue (queue.map JoinItem.key) 0

/-- Embeds `JoinQueue.enqueue` (src/app/Storage.py lines 122-123):
`enqueue_many([{kind, value}]) > 0`. -/
def enqueue (queue : List JoinItem) (kind value : String) : List JoinItem × Bool :=
  let r := enqueue_many queue [⟨kind, value⟩]
  (r.1, decide (r.2 > 0))

/-- Embeds `JoinQueue.dequeue` (src/app/Storage.py lines 125-133):
`items.pop(0)` when non-empty, `None` otherwise. -/
def dequeue : List JoinItem → Option JoinItem × List JoinItem
  | [] => (none, [])
  | it :: rest => (some it, rest)

/-- Embeds `JoinQueue.__init__` (src/app/Storage.py lines 96-100) as a
function of the file's prior content: a missing file is initialized to
`{"items": []}`; an existing file is left untouched. -/
def joinQueueInit : Option (List JoinItem) → List JoinItem
  | none => []
  | some items => items

/-! ### Pacing commands (src/runner.py lines 359-388) -/

/-- Embeds `int("".join(filter(str.isdigit, text)) or "0")`: the decimal
value of all digit characters of `text`, concatenated (0 when there are
none). -/
def digits_value (text : String) : Nat :=
  digitsToNat (text.data.filter Char.isDigit)

/-- Embeds `"h" in text.lower()`: some character of `text` lowercases to
`h`. -/
def has_h (text : String) : Bool :=
  text.data.any (fun c => c.toLower == 'h')

/-- Embeds the `.time` handler (src/runner.py lines 359-374): the cycle
delay in minutes set by the command, `none` when the digit value is 0
(the usage-error reply). A value with an `h` anywhere in the text is
taken as hours and multiplied by 60. -/
def time_command (text : String) : Option Nat :=
  let value := digits_value text
  if value = 0 then none
  else if has_h text then some (value * 60)
  else some value

/-- Embeds the `.delay` handler (src/runner.py lines 376-388): the
per-message delay in seconds set by the command, `none` when the digit
value is 0. -/
def delay_command (text : String) : Option Nat :=
  let value := digits_value text
  if value = 0 then none else some value

/-! ### Forward loop dispatch of one item (src/runner.py lines 581-598) -/

/-- Observable events of dispatching one message: a send attempt to a
group (with its outcome) or a sleep. -/
inductive FwdEvent where
  | attempt (group : String) (ok : Bool)
  | sleep (secs : Nat)
deriving DecidableEq

/-- Whether an event is a send attempt. -/
def FwdEvent.isAttempt : FwdEvent → Bool
  | .attempt _ _ => true
  | .sleep _ => false

/-- The inner `for group in groups` loop (src/runner.py lines 591-596):
every group is attempted; a raising `forward_messages` (modelled by
`sendFails`) is caught by the `except` and the loop continues. -/
def forward_to_groups (groups : List String) (sendFails : String → Bool) : List FwdEvent :=
  groups.map (fun g => FwdEvent.attempt g (!sendFails g))

/-- Dispatch of one message (src/runner.py lines 591-598): the group
loop followed by the single `await asyncio.sleep(user_state["delay"])`. -/
def forward_one_message (groups : List String) (sendFails : String → Bool)
    (delay : Nat) : List FwdEvent :=
  forward_to_groups groups sendFails ++ [FwdEvent.sleep delay]

/-- Number of sleeps the trace performs strictly between send attempts,
i.e. sleeps that are followed by at least one later attempt (the
"inter-destination gap" sleeps of the spec). -/
def gap_sleep_count : List FwdEvent → Nat
  | [] => 0
  | FwdEvent.sleep _ :: rest =>
      (if rest.any FwdEvent.isAttempt then 1 else 0) + gap_sleep_count rest
  | FwdEvent.attempt _ _ :: rest => gap_sleep_count rest

/-- The groups attempted by a trace, in order. -/
def attempted_groups (trace : List FwdEvent) : List String :=
  trace.filterMap (fun e =>
    match e with
    | FwdEvent.attempt g _ => some g
    | FwdEvent.sleep _ => none)

/-! ### Helper lemmas -/

/-- Specification of the `enqueue_many` loop: it appends some list `new`
of items to `data`, increments the counter by `new.length`, and the keys
of `new` are pairwise distinct and disjoint from `existing`. -/
theorem enqueue_many_go_spec (items : List JoinItem) :
    ∀ (data : List JoinItem) (existing : List (String × String)) (added : Nat),
    ∃ new : List JoinItem,
      enqueue_many_go items data existing added = (data ++ new, added + new.length)
      ∧ (new.map JoinItem.key).Nodup
      ∧ ∀ k ∈ new.map JoinItem.key, k ∉ existing := by
  induction items with
  | nil =>
      intro data existing added
      exact ⟨[], by simp [enqueue_many_go], by simp, by simp⟩
  | cons it rest ih =>
      intro data existing added
      by_cases h : it.key ∈ existing
      · obtain ⟨new, h1, h2, h3⟩ := ih data existing added
        exact ⟨new, by simp only [enqueue_many_go, if_pos h]; exact h1, h2, h3⟩
      · obtain ⟨new, h1, h2, h3⟩ := ih (data ++ [it]) (it.key :: existing) (added + 1)
        refine ⟨it :: new, ?_, ?_, ?_⟩
        · simp only [enqueue_many_go, if_neg h, h1, List.append_assoc,
            List.singleton_append, List.length_cons]
          exact Prod.ext rfl (by omega)
        · refine List.nodup_cons.mpr ⟨fun hmem => ?_, h2⟩
          exact h3 it.key hmem (List.mem_cons_self _ _)
        · intro k hk
          rw [List.map_cons, List.mem_cons] at hk
          rcases hk with hk' | hk'
          · subst hk'; exact h
          · exact fun hx => h3 k hk' (List.mem_cons_of_mem _ hx)

/-- Every input link ends up in the group list built by the `.addgroup`
loop. -/
theorem addgroup_links_mem :
    ∀ (links groups : List String) (l : String),
      l ∈ groups ∨ l ∈ links → l ∈ addgroup_links groups links := by
  intro links
  induction links with
  | nil =>
      intro groups l h
      simpa [addgroup_links] using h.resolve_right (by simp)
  | cons x rest ih =>
      intro groups l h
      show l ∈ addgroup_links (if x ∈ groups then groups else groups ++ [x]) rest
      apply ih
      by_cases hx : x ∈ groups
      · rcases h with h | h
        · exact Or.inl (by simpa [hx] using h)
        · rcases List.mem_cons.mp h with h' | h'
          · exact Or.inl (by simp [hx, h'])
          · exact Or.inr h'
      · rcases h with h | h
        · exact Or.inl (by simp [hx, List.mem_append]; exact Or.inl h)
        · rcases List.mem_cons.mp h with h' | h'
          · exact Or.inl (by simp [hx, h'])
          · exact Or.inr h'

/-- The trace of one message dispatch has no sleep before a later
attempt. -/
theorem gap_sleep_count_dispatch (f : String → Bool) (d : Nat) :
    ∀ groups : List String,
      gap_sleep_count (forward_to_groups groups f ++ [FwdEvent.sleep d]) = 0 := by
  intro groups
  induction groups with
  | nil => simp [forward_to_groups, gap_sleep_count, FwdEvent.isAttempt]
  | cons g rest ih =>
      simpa [forward_to_groups, gap_sleep_count] using ih

/-- The trace of one message dispatch has exactly one non-attempt
(sleep) event. -/
theorem one_sleep_dispatch (f : String → Bool) (d : Nat) :
    ∀ groups : List String,
      ((forward_to_groups groups f ++ [FwdEvent.sleep d]).filter
        (fun e => !e.isAttempt)).length = 1 := by
  intro groups
  simp [forward_to_groups, FwdEvent.isAttempt, List.filter_append]

/-! ### Claim theorems -/

/-- C1: for every quiet window (start, end) and every time-of-day now,
`_in_window` is true iff: when start <= end, start <= now < end; when
start > end (midnight wrap), now >= start or now < end; for (23:00,
07:00) it is true at 23:30, 02:00, 06:59 and false at 07:00, 12:00,
22:59; and for start == end it is false for every now. Times are in
seconds of day (23:00 = 82800, 07:00 = 25200, etc.). -/
theorem in_window_spec : ∀ start_t end_t now_t : Nat,
    (start_t ≤ end_t →
      (_in_window now_t start_t end_t = true ↔ start_t ≤ now_t ∧ now_t < end_t))
    ∧ (end_t < start_t →
      (_in_window now_t start_t end_t = true ↔ now_t ≥ start_t ∨ now_t < end_t))
    ∧ (start_t = end_t → _in_window now_t start_t end_t = false)
    ∧ (_in_window 84600 82800 25200 = true ∧ _in_window 7200 82800 25200 = true
       ∧ _in_window 25140 82800 25200 = true ∧ _in_window 25200 82800 25200 = false
       ∧ _in_window 43200 82800 25200 = false ∧ _in_window 82740 82800 25200 = false) := by
  intro s e n
  refine ⟨?_, ?_, ?_, by decide⟩
  · intro h
    simp [_in_window, h]
  · intro h
    simp only [_in_window]
    rw [if_neg (by omega)]
    simp
  · intro h
    subst h
    simp [_in_window]

/-- Witness for C1 at the wrapping window (23:00, 07:00), now 23:30, and
at a degenerate window start = end = 23:00, now 12:00. -/
theorem in_window_spec_witness :
    (_in_window 84600 82800 25200 = true ↔ 84600 ≥ 82800 ∨ 84600 < 25200)
    ∧ _in_window 43200 82800 82800 = false :=
  ⟨(in_window_spec 82800 25200 84600).2.1 (by decide),
   (in_window_spec 82800 82800 43200).2.2.1 (by decide)⟩

/-- C2: whenever now (< 86400 seconds, a valid time of day) is inside
the quiet window, `seconds_until_quiet_end` equals the distance to the
next chronological end-of-window instant strictly after now; it always
returns at least 1; and for window (23:00, 07:00) at now = 23:00 exactly
it returns 28800. -/
theorem seconds_until_quiet_end_spec : ∀ start_t end_t now_t : Nat,
    now_t < 86400 →
    (1 ≤ seconds_until_quiet_end start_t end_t now_t)
    ∧ (_in_window now_t start_t end_t = true →
        seconds_until_quiet_end start_t end_t now_t = spec_next_end_distance end_t now_t)
    ∧ seconds_until_quiet_end 82800 25200 82800 = 28800 := by
  intro s e n hn
  refine ⟨le_max_left _ _, ?_, by decide⟩
  intro hq
  have hrw : seconds_until_quiet_end s e n =
      max 1 ((if s ≤ e then
                (if n ≥ e then (e : Int) + 86400 else (e : Int))
              else
                (if n < e then (e : Int) else (e : Int) + 86400)) - (n : Int)) := rfl
  rcases le_or_lt s e with hse | hse
  · have hq' : s ≤ n ∧ n < e := by
      have h := hq
      unfold _in_window at h
      rw [if_pos hse] at h
      exact of_decide_eq_true h
    rw [hrw, if_pos hse, if_neg (by omega), spec_next_end_distance, if_pos hq'.2,
      max_eq_right (by omega)]
  · have hq' : n ≥ s ∨ n < e := by
      have h := hq
      unfold _in_window at h
      rw [if_neg (by omega)] at h
      exact of_decide_eq_true h
    rw [hrw, if_neg (by omega), spec_next_end_distance]
    by_cases hne : n < e
    · rw [if_pos hne, if_pos hne, max_eq_right (by omega)]
    · rw [if_neg hne, if_neg hne, max_eq_right (by omega)]

/-- Witness for C2 at the wrapping window (23:00, 07:00) with now =
23:30 (inside the window) and now = 23:00 exactly. -/
theorem seconds_until_quiet_end_witness :
    1 ≤ seconds_until_quiet_end 82800 25200 84600
    ∧ seconds_until_quiet_end 82800 25200 84600 = spec_next_end_distance 25200 84600
    ∧ seconds_until_quiet_end 82800 25200 82800 = 28800 :=
  ⟨(seconds_until_quiet_end_spec 82800 25200 84600 (by decide)).1,
   (seconds_until_quiet_end_spec 82800 25200 84600 (by decide)).2.1 (by decide),
   (seconds_until_quiet_end_spec 82800 25200 84600 (by decide)).2.2⟩

/-- C3: on a queue whose (kind, value) keys are pairwise distinct,
`enqueue_many` appends exactly the items whose key is not already
present, preserves the no-duplicate invariant, and returns the count of
genuinely new items; and a key not currently queued (in particular one
that was previously dequeued, since `dequeue` removes it from the
persisted list) is accepted by `enqueue`. -/
theorem enqueue_many_dedup (queue items : List JoinItem)
    (hq : (queue.map JoinItem.key).Nodup) :
    (∃ new : List JoinItem,
       enqueue_many queue items = (queue ++ new, new.length)
       ∧ ((queue ++ new).map JoinItem.key).Nodup
       ∧ ∀ it ∈ new, it.key ∉ queue.map JoinItem.key)
    ∧ (∀ kind value, (kind, value) ∉ queue.map JoinItem.key →
        (enqueue queue kind value).2 = true) := by
  constructor
  · obtain ⟨new, h1, h2, h3⟩ := enqueue_many_go_spec items queue (queue.map JoinItem.key) 0
    refine ⟨new, by simpa [enqueue_many] using h1, ?_, ?_⟩
    · rw [List.map_append, List.nodup_append]
      exact ⟨hq, h2, fun k hk hk2 => h3 k hk2 hk⟩
    · intro it hit
      exact h3 it.key (List.mem_map_of_mem _ hit)
  · intro kind value hkv
    simp [enqueue, enqueue_many, enqueue_many_go, JoinItem.key, hkv]

/-- Witness for C3: the spec's scenario — enqueuing
[{invite, x}, {invite, x}, {username, y}] into the empty queue. -/
theorem enqueue_many_dedup_witness :
    (∃ new : List JoinItem,
       enqueue_many [] [⟨"invite", "x"⟩, ⟨"invite", "x"⟩, ⟨"username", "y"⟩]
         = ([] ++ new, new.length)
       ∧ ((([] : List JoinItem) ++ new).map JoinItem.key).Nodup
       ∧ ∀ it ∈ new, it.key ∉ ([] : List JoinItem).map JoinItem.key)
    ∧ (∀ kind value, (kind, value) ∉ ([] : List JoinItem).map JoinItem.key →
        (enqueue [] kind value).2 = true) :=
  enqueue_many_dedup [] [⟨"invite", "x"⟩, ⟨"invite", "x"⟩, ⟨"username", "y"⟩] (by decide)

/-- C4: `dequeue` returns the earliest-enqueued item not yet dequeued
(the head of the persisted list — `enqueue_many` only ever appends at
the tail) or `none` on the empty queue, and reopening the persisted
queue (`JoinQueue.__init__` on an existing file) reproduces exactly the
items, set and order, left by the previous instance. -/
theorem dequeue_fifo_spec :
    (∀ (it : JoinItem) (rest : List JoinItem), dequeue (it :: rest) = (some it, rest))
    ∧ dequeue [] = (none, [])
    ∧ (∀ items : List JoinItem, joinQueueInit (some items) = items)
    ∧ joinQueueInit none = []
    ∧ (∀ queue items : List JoinItem,
        ∃ appended, (enqueue_many queue items).1 = queue ++ appended) := by
  refine ⟨fun it rest => rfl, rfl, fun items => rfl, rfl, fun queue items => ?_⟩
  obtain ⟨new, h1, -, -⟩ := enqueue_many_go_spec items queue (queue.map JoinItem.key) 0
  exact ⟨new, by simp [enqueue_many, h1]⟩

/-- Fifty distinct destination ids, 0..49. -/
def fiftyGroups : Finset Int :=
  ((List.range 50).map (fun n => (n : Int))).toFinset

set_option maxRecDepth 8192 in
/-- C5 counterexample: with 50 destinations already configured,
`Storage.add_groups` accepts a 51st id — it is not refused, the
destination set reaches card 51 > 50, violating
`len(destinations) <= maxDestinations` for the recommended cap 50. -/
theorem add_groups_cap_cex :
    ((Storage.add_groups ⟨"+1", "2025-01-01", 10, fiftyGroups⟩ [1000]).1.groups.card = 51)
    ∧ ¬ ((Storage.add_groups ⟨"+1", "2025-01-01", 10, fiftyGroups⟩ [1000]).1.groups.card ≤ 50)
    ∧ (Storage.add_groups ⟨"+1", "2025-01-01", 10, fiftyGroups⟩ [1000]).2 = 1 := by
  decide

/-- C5 amended: neither `Storage.add_groups` nor the `.addgroup` handler
enforces any size cap — every requested id/link joins the destination
set no matter how large it already is (additions are never refused). -/
theorem add_groups_no_cap :
    (∀ (cfg : UserConfig) (ids : List Int),
       (Storage.add_groups cfg ids).1.groups = cfg.groups ∪ ids.toFinset
       ∧ ids.toFinset ⊆ (Storage.add_groups cfg ids).1.groups)
    ∧ (∀ (groups links : List String) (l : String),
        l ∈ links → l ∈ addgroup_links groups links) := by
  constructor
  · intro cfg ids
    exact ⟨rfl, Finset.subset_union_right⟩
  · intro groups links l hl
    exact addgroup_links_mem links groups l (Or.inr hl)

/-- Witness for C5 amended: the 51st link is present after the add. -/
theorem add_groups_no_cap_witness :
    "https://t.me/g51" ∈ addgroup_links
      ((List.range 50).map (fun n => "g" ++ toString n)) ["https://t.me/g51"] :=
  add_groups_no_cap.2 ((List.range 50).map (fun n => "g" ++ toString n))
    ["https://t.me/g51"] "https://t.me/g51" (by decide)

/-- C6 counterexample: the pacing commands do not parse s/m/h/d duration
units. `.time 1h30m` concatenates the digits to 130 and, seeing an `h`,
sets a cycle of 7800 minutes — not the 90 minutes (5400 seconds) the
claim requires; `.delay 2d` sets 2 seconds, not 172800. -/
theorem duration_parse_cex :
    time_command ".time 1h30m" = some 7800 ∧ (7800 : Nat) ≠ 90
    ∧ delay_command ".delay 2d" = some 2 ∧ (2 : Nat) ≠ 172800 := by
  decide

/-- C6 amended: `.time` takes the concatenation of all digit characters
as its value, interprets it as hours (times 60) when an `h` occurs
anywhere in the text and as minutes otherwise; `.delay` takes the digit
concatenation as seconds, ignoring unit letters entirely; a value of 0
(no digits) is a usage error. -/
theorem duration_parse_actual :
    time_command ".time 1h30m" = some 7800
    ∧ time_command ".time 10m" = some 10
    ∧ time_command ".time 1h" = some 60
    ∧ time_command ".time 45" = some 45
    ∧ delay_command ".delay 45" = some 45
    ∧ delay_command ".delay 2d" = some 2
    ∧ delay_command ".delay abc" = none
    ∧ time_command ".time" = none := by
  decide

/-- C7 counterexample: dispatching one item to destinations [A, B, C]
performs zero sleeps between destination sends — not the 2 gap-sleeps
(after A and after B) the claim requires. -/
theorem broadcast_gap_cex :
    gap_sleep_count (forward_one_message ["A", "B", "C"] (fun _ => false) 5) = 0
    ∧ gap_sleep_count (forward_one_message ["A", "B", "C"] (fun _ => false) 5) ≠ 2 := by
  decide

/-- C7 amended: in the dispatch of one work item no sleep at all occurs
between destinations; the only sleep is the single per-item delay, and
it comes after the final destination. -/
theorem broadcast_gap_actual :
    ∀ (groups : List String) (sendFails : String → Bool) (delay : Nat),
      gap_sleep_count (forward_one_message groups sendFails delay) = 0
      ∧ ((forward_one_message groups sendFails delay).filter
          (fun e => !e.isAttempt)).length = 1
      ∧ forward_one_message groups sendFails delay
          = forward_to_groups groups sendFails ++ [FwdEvent.sleep delay] := by
  intro groups f d
  exact ⟨gap_sleep_count_dispatch f d groups, one_sleep_dispatch f d groups, rfl⟩

/-- C8: during dispatch of one item, every destination in the list
receives exactly one send attempt, in order, whatever the pattern of
per-destination send failures — a failure at one destination never
prevents the attempts at the remaining ones. -/
theorem broadcast_attempts_all :
    ∀ (groups : List String) (sendFails : String → Bool) (delay : Nat),
      attempted_groups (forward_one_message groups sendFails delay) = groups := by
  intro groups f d
  induction groups with
  | nil => rfl
  | cons g rest ih =>
      simpa [forward_one_message, forward_to_groups, attempted_groups] using ih

/-- C9: reloading a persisted configuration reproduces it identically —
`Storage.load` after `Storage.save` is the identity on every persisted
field (phone, plan_expiry, cycle_minutes and the groups/destination
set). -/
theorem storage_roundtrip : ∀ cfg : UserConfig, Storage.load (Storage.save cfg) = cfg := by
  intro cfg
  cases cfg with
  | mk phone expiry cyc groups =>
      simp [Storage.load, Storage.save, UserConfig.to_dict, UserConfig.from_dict,
        Finset.sort_toFinset]

/-- C10 counterexample: a malformed timezone does not make
`autonight_is_quiet` return false. `ZoneInfo` failures are swallowed
inside `_get_now_tz`, which falls back to the system-local clock, so
with window 00:00-23:59, a tz every lookup of which fails, and local
time 12:00, the function returns true. -/
theorem autonight_tz_cex :
    ((fun _ => (none : Option Nat)) "Not/A-Zone" = none)
    ∧ autonight_is_quiet ⟨some true, some "0", some "23:59", some "Not/A-Zone"⟩
        (fun _ => none) 43200 = true := by
  exact ⟨rfl, by decide⟩

/-- C10 amended: quiet-hour suppression fails open for the enabled flag
and the window fields — when enabled is false, or parsing of start or
end raises, `autonight_is_quiet` returns false (and, being embedded as a
total function whose `try` body is an `Option` discharged by
`getD false`, it never raises); a malformed tz however only falls back
to the local clock. -/
theorem autonight_fail_open :
    ∀ (cfg : AutoNightCfg) (validTz : String → Option Nat) (localNow : Nat),
      (cfg.enabled.getD true = false →
        autonight_is_quiet cfg validTz localNow = false)
      ∧ (_parse_hhmm (cfg.start.getD "23:00") = none
          ∨ _parse_hhmm (cfg.endTime.getD "07:00") = none →
        autonight_is_quiet cfg validTz localNow = false) := by
  intro cfg vtz now
  constructor
  · intro h
    simp [autonight_is_quiet, h]
  · intro h
    unfold autonight_is_quiet
    by_cases he : cfg.enabled.getD true = false
    · simp [he]
    · rcases h with h | h
      · simp [he, autonight_quiet_checked, h]
      · cases hs : _parse_hhmm (cfg.start.getD "23:00") with
        | none => simp [he, autonight_quiet_checked, hs]
        | some st => simp [he, autonight_quiet_checked, hs, h]

/-- Witness for C10 amended: a disabled config and a config with an
unparseable start both yield false. -/
theorem autonight_fail_open_witness :
    (autonight_is_quiet ⟨some false, none, none, none⟩ (fun _ => none) 0 = false)
    ∧ (autonight_is_quiet ⟨some true, some "25:99x", none, none⟩ (fun _ => none) 0 = false) :=
  ⟨(autonight_fail_open ⟨some false, none, none, none⟩ (fun _ => none) 0).1 (by decide),
   (autonight_fail_open ⟨some true, some "25:99x", none, none⟩ (fun _ => none) 0).2
     (Or.inl (by decide))⟩

end App
